import Mathlib

/-! # Verification of the celery task registry (celery/registry.py)

A shallow embedding of `celery/registry.py`.  The registry is a Python dict
mapping task names (strings) to stored values; we embed it as an association
list with unique keys (a Python dict can never hold two entries with the same
key).  Python attribute access, truthiness of the `name` argument, class
instantiation and calling of values are made explicit.  Exceptions are
modelled with `Except`; mutating methods return the outcome together with the
registry state at the moment the method returns or raises, so that
no-mutation-on-failure properties are expressible.
-/

namespace CeleryRegistry

/-- The positional and keyword arguments of a task invocation, modelled as an
opaque payload. -/
abbrev Args := List Nat

/-- The outcome of calling a plain callable: a returned value, or an exception
raised by the callable and propagated to the caller. -/
abbrev RunResult := Except String Nat

/-- The behaviour of a `run` method or of a plain callable. -/
abbrev RunFn := Args → RunResult

/-- The attributes of the task capability contract (`celery.task.base.Task`
subclasses and their instances): a `name` attribute (`none` when the object
has no such attribute), a `type` attribute and a `run` method.  An instance
created from a class carries the class attributes. -/
structure TaskHandler where
  name : Option String
  type : String
  run : RunFn

/-- The Python values handled by the registry code: plain strings, plain
callables (no `run` and no `name` attribute, like a Python function), task
classes and task instances. -/
inductive PyVal where
  | str : String → PyVal
  | func : RunFn → PyVal
  | cls : TaskHandler → PyVal
  | inst : TaskHandler → PyVal

/-- The Python exceptions reachable from the registry code. -/
inductive PyErr where
  | attributeError (attr : String)
  | typeError (msg : String)
  | keyError (key : String)
  | alreadyRegistered (name : String)
  | notRegistered (name : String)
deriving DecidableEq

/-! ## Name-to-class-name derivation

`RE_ILLEGAL_CLASS_CHARS = re.compile(r"[\W_]")` and
`name_to_clsname(name) = "".join(map(str.capitalize, RE_ILLEGAL_CLASS_CHARS.split(name)))`.
`[\W_]` matches every character that is not an ASCII letter or digit
(the non-word characters together with the underscore).  `re.split` with a
single-character class splits at every occurrence, so consecutive illegal
characters produce empty segments; `str.capitalize` uppercases the first
character and lowercases the rest, and capitalizing an empty segment yields
the empty string. -/

/-- The characters matched by `RE_ILLEGAL_CLASS_CHARS`, the regular expression
`[\W_]`: everything that is not an ASCII letter or digit. -/
def RE_ILLEGAL_CLASS_CHARS (c : Char) : Bool := !c.isAlphanum

/-- Semantics of `re.split` with a single-character pattern: split the character list at
every character matched by `sep`.  Consecutive separators yield empty
segments, and the result is never the empty list. -/
def splitEvery (sep : Char → Bool) : List Char → List (List Char)
  | [] => [[]]
  | c :: cs =>
    if sep c then [] :: splitEvery sep cs
    else
      match splitEvery sep cs with
      | [] => [[c]]
      | seg :: segs => (c :: seg) :: segs

/-- Python `str.capitalize` on a character list: first character uppercased, the
rest lowercased. -/
def capitalizeL : List Char → List Char
  | [] => []
  | c :: cs => c.toUpper :: cs.map Char.toLower

/-- Concatenation `"".join(map(str.capitalize, segs))` on character lists. -/
def concatCapL : List (List Char) → List Char
  | [] => []
  | seg :: rest => capitalizeL seg ++ concatCapL rest

/-- Python `str.capitalize`. -/
def pyCapitalize (s : String) : String := String.mk (capitalizeL s.data)

/-- Source `name_to_clsname`:
`"".join(map(str.capitalize, RE_ILLEGAL_CLASS_CHARS.split(name)))`. -/
def name_to_clsname (name : String) : String :=
  String.mk (concatCapL (splitEvery RE_ILLEGAL_CLASS_CHARS name.data))

/-- The maximal runs of characters not matched by `sep`: splitting on any run
of separator characters and keeping the resulting segments.  This is the
spec's description of the derivation, to be compared with the source's
character-by-character split. -/
def alnumSegments (sep : Char → Bool) : List Char → List (List Char)
  | [] => []
  | c :: cs =>
    if sep c then alnumSegments sep cs
    else
      match cs, alnumSegments sep cs with
      | [], _ => [[c]]
      | d :: _, rest =>
        if sep d then [c] :: rest
        else
          match rest with
          | [] => [[c]]
          | seg :: segs => (c :: seg) :: segs

/-- The spec's reading of the derivation: split the name on runs of
non-alphanumeric/underscore characters, capitalize each segment, and
concatenate. -/
def name_to_clsname_spec (name : String) : String :=
  String.mk (concatCapL (alnumSegments RE_ILLEGAL_CLASS_CHARS name.data))

/-! ## Python attribute access and calling -/

/-- Attribute probe `hasattr(v, "run")`: task classes and task instances have a `run`
attribute; strings and plain functions do not. -/
def hasRunAttr : PyVal → Bool
  | .cls _ => true
  | .inst _ => true
  | .str _ => false
  | .func _ => false

/-- Attribute access `getattr(v, "name")`: raises `AttributeError` when the object has no
`name` attribute.  Python strings and plain functions have no `name`
attribute. -/
def getattrName : PyVal → Except PyErr String
  | .cls th =>
    match th.name with
    | some s => .ok s
    | none => .error (.attributeError "name")
  | .inst th =>
    match th.name with
    | some s => .ok s
    | none => .error (.attributeError "name")
  | .str _ => .error (.attributeError "name")
  | .func _ => .error (.attributeError "name")

/-- Modelled from the spec: `celery.task.base.Task` is not under `src/`.  The
spec's capability contract gives a handler exactly `name`, `type` and a `run`
method, so calling a handler class produces an instance carrying the class
attributes, while a handler instance is not itself callable and calling it
raises `TypeError`.  `register` applies this only to task classes and task
instances (a value without a `run` attribute goes through synthesis instead),
so the remaining constructors are grouped with the non-callable case; for a
string that is also Python's behaviour. -/
def pyCall : PyVal → Except PyErr PyVal
  | .cls th => .ok (.inst th)
  | _ => .error (.typeError "object is not callable")

/-- The behaviour of the wrapped task inside the synthesized `run` method
(`runmethod` forwards `*args, **kwargs` to `task`).  Only the `.func` case is
reachable from `register`: synthesis happens exactly when the task has no
`run` attribute, and registering a string would raise `TypeError` at the call.
-/
def runFnOf : PyVal → RunFn
  | .func f => f
  | _ => fun _ => .error "TypeError: object is not callable"

/-! ## The registry mapping

`TaskRegistry.data` is a Python dict keyed by strings; we embed it as an
association list.  A dict never holds two entries with the same key, and the
operations below preserve that. -/

/-- The state of `TaskRegistry.data`. -/
abbrev TaskRegistry := List (String × PyVal)

/-- Membership test `name in self.data`. -/
def hasKey (r : TaskRegistry) (n : String) : Bool :=
  r.any (fun p => p.1 == n)

/-- Lookup `self.data[name]` as a read: the stored value, if any. -/
def dictGet (r : TaskRegistry) (n : String) : Option PyVal :=
  (r.find? (fun p => p.1 == n)).map (fun p => p.2)

/-- Assignment `self.data[name] = v`: replace the entry if the key is present, append it
otherwise. -/
def dictSet (r : TaskRegistry) (n : String) (v : PyVal) : TaskRegistry :=
  if hasKey r n then r.map (fun p => if p.1 == n then (n, v) else p)
  else r ++ [(n, v)]

/-- Deletion `del self.data[name]`: remove the entry with that key (on a dict the key
is unique). -/
def dictDel (r : TaskRegistry) (n : String) : TaskRegistry :=
  r.filter (fun p => p.1 != n)

/-- A plain repr of a value, used only to format error messages
(`"... %s ..." % name`). -/
def pyrepr : PyVal → String
  | .str s => s
  | .func _ => "<function>"
  | .cls _ => "<class>"
  | .inst _ => "<instance>"

/-! ## The registry operations -/

/-- The name-resolution prefix of `register`:
`if not name: name = getattr(task, "name")`.  Python's `not name` is true for
`None` and for the empty string. -/
def resolveName (task : PyVal) (name : Option String) : Except PyErr String :=
  match name with
  | none => getattrName task
  | some s => if s.isEmpty then getattrName task else .ok s

/-- Method `TaskRegistry.register(task, name=None)`.  Mirrors the source line by
line: `is_class = hasattr(task, "run")`; resolve the name; raise
`AlreadyRegistered` if the resolved name is already a key; otherwise
`taskcls = task` when the task has a `run` attribute, else
`taskcls = type(clsname, (Task,), {"name": name, "type": "regular",
"run": runmethod})()` — note the trailing call: the synthesized type is
instantiated on this very line; finally `self.data[name] = taskcls()`.
Returns the outcome together with the registry state at return time. -/
def register (r : TaskRegistry) (task : PyVal) (name : Option String) :
    Except PyErr Unit × TaskRegistry :=
  match resolveName task name with
  | .error e => (.error e, r)
  | .ok n =>
    if hasKey r n then (.error (.alreadyRegistered n), r)
    else
      let taskcls : PyVal :=
        if hasRunAttr task then task
        else .inst ⟨some n, "regular", runFnOf task⟩
      match pyCall taskcls with
      | .error e => (.error e, r)
      | .ok v => (.ok (), dictSet r n v)

/-- Method `TaskRegistry.unregister(name)`: if the argument has a `run` attribute its
`name` attribute is used as the key; a missing key raises `NotRegistered`,
otherwise the entry is deleted.  A non-string key is never `in` a dict keyed
by strings. -/
def unregister (r : TaskRegistry) (nameArg : PyVal) :
    Except PyErr Unit × TaskRegistry :=
  match
    (if hasRunAttr nameArg then (getattrName nameArg).map PyVal.str
     else .ok nameArg) with
  | .error e => (.error e, r)
  | .ok key =>
    match key with
    | .str s =>
      if hasKey r s then (.ok (), dictDel r s)
      else (.error (.notRegistered s), r)
    | other => (.error (.notRegistered (pyrepr other)), r)

/-- Method `TaskRegistry.get_all()`: `return self.data`. -/
def get_all (r : TaskRegistry) : TaskRegistry := r

/-- Attribute access `getattr(v, "type")`: task classes and instances carry a `type`
attribute; other values raise `AttributeError`. -/
def typeAttr : PyVal → Except PyErr String
  | .cls th => .ok th.type
  | .inst th => .ok th.type
  | .str _ => .error (.attributeError "type")
  | .func _ => .error (.attributeError "type")

/-- Method `TaskRegistry.filter_types(type)`:
`dict((task_name, task) for task_name, task in self.data.items()
if task.type == type)`.  Reading `task.type` raises `AttributeError` on a
value without a `type` attribute; values stored by `register` always have
one. -/
def filter_types (r : TaskRegistry) (ty : String) : Except PyErr TaskRegistry :=
  match r with
  | [] => .ok []
  | (n, v) :: rest =>
    match typeAttr v with
    | .error e => .error e
    | .ok t =>
      match filter_types rest ty with
      | .error e => .error e
      | .ok acc => .ok (if t == ty then (n, v) :: acc else acc)

/-- Method `TaskRegistry.get_all_regular()`. -/
def get_all_regular (r : TaskRegistry) : Except PyErr TaskRegistry :=
  filter_types r "regular"

/-- Method `TaskRegistry.get_all_periodic()`. -/
def get_all_periodic (r : TaskRegistry) : Except PyErr TaskRegistry :=
  filter_types r "periodic"

/-- Method `TaskRegistry.get_task(name)`: `return self.data[name]`, raising the
dict's `KeyError` when the key is absent.  The operation only reads the
mapping. -/
def get_task (r : TaskRegistry) (name : String) : Except PyErr PyVal :=
  match dictGet r name with
  | some v => .ok v
  | none => .error (.keyError name)

/-! ## Concrete values used by the witnesses -/

def demoRun : RunFn := fun args => .ok (args.foldl (fun a b => a + b) 0)

def demoHandlerA : TaskHandler := ⟨some "a", "regular", demoRun⟩

def demoHandlerB : TaskHandler := ⟨some "b", "periodic", demoRun⟩

def demoHandlerC : TaskHandler := ⟨some "c", "regular", demoRun⟩

def demoRegistry : TaskRegistry :=
  [("a", .inst demoHandlerA), ("b", .inst demoHandlerB)]

/-! ## Lemmas about the splitting functions -/

theorem splitEvery_ne_nil (sep : Char → Bool) (l : List Char) :
    splitEvery sep l ≠ [] := by
  cases l with
  | nil => simp [splitEvery]
  | cons c cs =>
    cases hc : sep c <;> simp only [splitEvery, hc]
    · cases splitEvery sep cs <;> simp
    · simp

theorem splitEvery_cons_sep {sep : Char → Bool} {c : Char} (cs : List Char)
    (h : sep c = true) : splitEvery sep (c :: cs) = [] :: splitEvery sep cs := by
  simp [splitEvery, h]

theorem splitEvery_cons_nonsep {sep : Char → Bool} {c : Char} {cs : List Char}
    {seg : List Char} {segs : List (List Char)} (h : sep c = false)
    (hs : splitEvery sep cs = seg :: segs) :
    splitEvery sep (c :: cs) = (c :: seg) :: segs := by
  simp [splitEvery, h, hs]

theorem alnumSegments_cons_sep {sep : Char → Bool} {c : Char} (cs : List Char)
    (h : sep c = true) : alnumSegments sep (c :: cs) = alnumSegments sep cs := by
  simp [alnumSegments, h]

theorem alnumSegments_cons2_sep {sep : Char → Bool} {c d : Char}
    (ds : List Char) (hc : sep c = false) (hd : sep d = true) :
    alnumSegments sep (c :: d :: ds) = [c] :: alnumSegments sep (d :: ds) := by
  simp [alnumSegments, hc, hd]

theorem alnumSegments_cons2_nonsep {sep : Char → Bool} {c d : Char}
    {ds seg : List Char} {segs : List (List Char)} (hc : sep c = false)
    (hd : sep d = false) (h : alnumSegments sep (d :: ds) = seg :: segs) :
    alnumSegments sep (c :: d :: ds) = (c :: seg) :: segs := by
  rw [alnumSegments.eq_def]
  simp only [hc, Bool.false_eq_true, if_false]
  rw [h]
  simp [hd]

theorem filter_splitEvery_eq_alnumSegments (sep : Char → Bool) (l : List Char) :
    (splitEvery sep l).filter (fun s => !s.isEmpty) = alnumSegments sep l := by
  induction l with
  | nil => simp [splitEvery, alnumSegments]
  | cons c cs ih =>
    cases hc : sep c
    · cases cs with
      | nil => simp [splitEvery, alnumSegments, hc]
      | cons d ds =>
        cases hd : sep d
        · obtain ⟨seg, segs, hs⟩ : ∃ seg segs,
              splitEvery sep ds = seg :: segs := by
            cases hsp : splitEvery sep ds with
            | nil => exact absurd hsp (splitEvery_ne_nil sep ds)
            | cons a b => exact ⟨a, b, rfl⟩
          rw [splitEvery_cons_nonsep hd hs] at ih
          rw [splitEvery_cons_nonsep hc (splitEvery_cons_nonsep hd hs)]
          simp only [List.filter_cons, List.isEmpty_cons, Bool.not_false,
            if_true] at ih ⊢
          rw [alnumSegments_cons2_nonsep hc hd ih.symm]
        · rw [splitEvery_cons_sep ds hd] at ih
          rw [splitEvery_cons_nonsep hc (splitEvery_cons_sep ds hd)]
          simp only [List.filter_cons, List.isEmpty_cons, Bool.not_false,
            if_true, List.isEmpty_nil, Bool.not_true, Bool.false_eq_true,
            if_false] at ih ⊢
          rw [alnumSegments_cons2_sep ds hc hd, ih]
    · rw [splitEvery_cons_sep cs hc, alnumSegments_cons_sep cs hc]
      simp only [List.filter_cons, List.isEmpty_nil, Bool.not_true,
        Bool.false_eq_true, if_false]
      exact ih

theorem concatCapL_filter (segs : List (List Char)) :
    concatCapL (segs.filter (fun s => !s.isEmpty)) = concatCapL segs := by
  induction segs with
  | nil => rfl
  | cons seg rest ih =>
    cases seg with
    | nil => simpa [concatCapL, capitalizeL] using ih
    | cons a as => simp [concatCapL, ih]

theorem name_to_clsname_eq_spec (name : String) :
    name_to_clsname name = name_to_clsname_spec name := by
  unfold name_to_clsname name_to_clsname_spec
  rw [← filter_splitEvery_eq_alnumSegments, concatCapL_filter]


/-! ## Lemmas about the mapping operations -/

theorem dictGet_eq_none (r : TaskRegistry) (n : String)
    (h : hasKey r n = false) : dictGet r n = none := by
  induction r with
  | nil => rfl
  | cons p rest ih =>
    simp only [hasKey, List.any_cons, Bool.or_eq_false_iff] at h
    simp only [dictGet]
    rw [List.find?_cons_of_neg _ (by simp [h.1])]
    exact ih h.2

theorem dictSet_absent (r : TaskRegistry) (n : String) (v : PyVal)
    (h : hasKey r n = false) : dictSet r n v = r ++ [(n, v)] := by
  simp [dictSet, h]

theorem dictGet_append_single (r : TaskRegistry) (n : String) (v : PyVal)
    (h : hasKey r n = false) : dictGet (r ++ [(n, v)]) n = some v := by
  induction r with
  | nil => simp [dictGet]
  | cons p rest ih =>
    simp only [hasKey, List.any_cons, Bool.or_eq_false_iff] at h
    simp only [List.cons_append, dictGet]
    rw [List.find?_cons_of_neg _ (by simp [h.1])]
    exact ih h.2

theorem mem_dictDel (r : TaskRegistry) (n : String) (p : String × PyVal) :
    p ∈ dictDel r n ↔ (p ∈ r ∧ p.1 ≠ n) := by
  simp [dictDel, List.mem_filter]

theorem hasKey_dictDel_self (r : TaskRegistry) (n : String) :
    hasKey (dictDel r n) n = false := by
  simp only [hasKey, List.any_eq_false]
  intro x hx
  rw [mem_dictDel] at hx
  simp [hx.2]

/-! ## The claims -/

/-- Claim C1: for every name not present in the registry, `register(task, n)`
is claimed to succeed and `get_task(n)` to return a handler named `n`, for
native handlers and for plain callables alike.  The code refutes the
plain-callable half: the synthesized handler type is instantiated on the
`type(clsname, (Task,), ...)()` line itself, so `self.data[name] = taskcls()`
calls that instance, which raises `TypeError`; registration fails and nothing
is stored.  Evaluated here at the concrete failing input: a registry with no
entries, a plain callable, and the fresh name `"send_email"`. -/
theorem register_fresh_plain_callable_raises :
    register [] (.func demoRun) (some "send_email")
      = (.error (.typeError "object is not callable"), []) := rfl

/-- Claim C2: when the resolved name is already a key of the mapping,
`register` raises `AlreadyRegistered` carrying the conflicting name, and the
registry after the failed call is the registry before it. -/
theorem register_already_registered_unchanged (r : TaskRegistry) (task : PyVal)
    (nm : Option String) (n : String) (hres : resolveName task nm = .ok n)
    (hkey : hasKey r n = true) :
    register r task nm = (.error (.alreadyRegistered n), r) := by
  simp [register, hres, hkey]

theorem register_already_registered_unchanged_witness :
    resolveName (.func demoRun) (some "a") = .ok "a" ∧
    hasKey demoRegistry "a" = true ∧
    register demoRegistry (.func demoRun) (some "a")
      = (.error (.alreadyRegistered "a"), demoRegistry) :=
  ⟨rfl, rfl, register_already_registered_unchanged demoRegistry
    (.func demoRun) (some "a") "a" rfl rfl⟩

/-- Claim C3: a plain callable registered under a fresh name is claimed to be
stored as a handler with `type = "regular"` and a forwarding `run`.  The code
refutes this: for every plain callable and every fresh resolved name,
`register` raises `TypeError` (the synthesized handler was already
instantiated by the trailing call on the `type(...)()` line, and
`self.data[name] = taskcls()` then calls the instance), and the registry is
left unchanged — no handler is ever stored for a plain callable. -/
theorem register_plain_callable_never_stores (r : TaskRegistry) (f : RunFn)
    (nm : Option String) (n : String)
    (hres : resolveName (.func f) nm = .ok n) (hkey : hasKey r n = false) :
    register r (.func f) nm
      = (.error (.typeError "object is not callable"), r) := by
  simp [register, hres, hkey, hasRunAttr, pyCall]

theorem register_plain_callable_never_stores_witness :
    resolveName (.func demoRun) (some "task-x") = .ok "task-x" ∧
    hasKey demoRegistry "task-x" = false ∧
    register demoRegistry (.func demoRun) (some "task-x")
      = (.error (.typeError "object is not callable"), demoRegistry) :=
  ⟨rfl, rfl, register_plain_callable_never_stores demoRegistry demoRun
    (some "task-x") "task-x" rfl rfl⟩

/-- Claim C4: every successful `register` call stores, under the resolved
name, an instantiated handler (a task instance), never the handler class
itself.  (The only successful path is the native one, a task class: the
synthesized path always raises, see C3.) -/
theorem register_success_stores_instance (r : TaskRegistry) (task : PyVal)
    (nm : Option String) (r2 : TaskRegistry)
    (h : register r task nm = (.ok (), r2)) :
    ∃ n th, resolveName task nm = .ok n ∧
      dictGet r2 n = some (PyVal.inst th) := by
  cases hres : resolveName task nm with
  | error e => simp [register, hres] at h
  | ok n =>
    cases hkey : hasKey r n with
    | true => simp [register, hres, hkey] at h
    | false =>
      cases task with
      | cls th =>
        simp [register, hres, hkey, hasRunAttr, pyCall] at h
        refine ⟨n, th, rfl, ?_⟩
        rw [← h, dictSet_absent r n _ hkey]
        exact dictGet_append_single r n _ hkey
      | inst th => simp [register, hres, hkey, hasRunAttr, pyCall] at h
      | str s => simp [register, hres, hkey, hasRunAttr, pyCall] at h
      | func f => simp [register, hres, hkey, hasRunAttr, pyCall] at h

theorem register_success_stores_instance_witness :
    register [] (.cls demoHandlerC) none
      = (.ok (), [("c", PyVal.inst demoHandlerC)]) ∧
    (∃ n th, resolveName (PyVal.cls demoHandlerC) none = .ok n ∧
      dictGet [("c", PyVal.inst demoHandlerC)] n = some (PyVal.inst th)) :=
  ⟨rfl, register_success_stores_instance [] (.cls demoHandlerC) none
    [("c", PyVal.inst demoHandlerC)] rfl⟩

/-- Claim C5: `unregister` keys on the input itself when it is a plain string,
and on the input's `name` attribute when the input has a `run` attribute; an
absent key raises `NotRegistered` carrying the missing name and leaves the
mapping unchanged; a present key removes exactly that entry. -/
theorem unregister_resolves_key_and_removes (r : TaskRegistry) (arg : PyVal)
    (s : String)
    (harg : arg = .str s ∨ (hasRunAttr arg = true ∧ getattrName arg = .ok s)) :
    (hasKey r s = false →
      unregister r arg = (.error (.notRegistered s), r)) ∧
    (hasKey r s = true →
      unregister r arg = (.ok (), dictDel r s) ∧
      ∀ p : String × PyVal, p ∈ (unregister r arg).2 ↔ (p ∈ r ∧ p.1 ≠ s)) := by
  have hstep : unregister r arg
      = (if hasKey r s then (.ok (), dictDel r s)
         else (.error (.notRegistered s), r)) := by
    rcases harg with h1 | ⟨h2, h3⟩
    · subst h1
      simp [unregister, hasRunAttr]
    · simp [unregister, h2, h3, Except.map]
  constructor
  · intro hk
    rw [hstep, if_neg (by simp [hk])]
  · intro hk
    rw [hstep, if_pos hk]
    exact ⟨rfl, fun p => mem_dictDel r s p⟩

theorem unregister_resolves_key_and_removes_witness :
    hasKey demoRegistry "a" = true ∧
    unregister demoRegistry (PyVal.str "a") = (.ok (), dictDel demoRegistry "a") :=
  ⟨rfl, ((unregister_resolves_key_and_removes demoRegistry (.str "a") "a"
    (Or.inl rfl)).2 rfl).1⟩

/-- Claim C6: looking up a name absent from the registry — in particular any
name immediately after `unregister` on it — fails with the dict's lookup
error (`KeyError`) instead of returning a value.  `get_task` only reads the
mapping, so the failed lookup leaves the registry untouched by construction.
-/
theorem get_task_absent_raises (r : TaskRegistry) (n : String) :
    (hasKey r n = false → get_task r n = .error (.keyError n)) ∧
    get_task (unregister r (.str n)).2 n = .error (.keyError n) := by
  have hsnd : (unregister r (.str n)).2
      = if hasKey r n then dictDel r n else r := by
    cases hk : hasKey r n <;> simp [unregister, hasRunAttr, hk]
  constructor
  · intro h
    simp [get_task, dictGet_eq_none r n h]
  · cases hk : hasKey r n
    · rw [hsnd, hk]
      simp only [Bool.false_eq_true, if_false]
      simp [get_task, dictGet_eq_none r n hk]
    · rw [hsnd, hk]
      simp only [if_true]
      simp [get_task, dictGet_eq_none _ n (hasKey_dictDel_self r n)]

theorem get_task_absent_raises_witness :
    hasKey demoRegistry "z" = false ∧
    get_task demoRegistry "z" = .error (.keyError "z") :=
  ⟨rfl, (get_task_absent_raises demoRegistry "z").1 rfl⟩

/-- Claim C7: the derived class-style identifier is computed by splitting the
task name on runs of non-alphanumeric/underscore characters, capitalizing
each segment and concatenating; in particular
`name_to_clsname "send_email" = "SendEmail"` and
`name_to_clsname "send-email!!2" = "SendEmail2"`.  The source splits at every
single illegal character, which agrees with the run-splitting description
because empty segments capitalize to the empty string. -/
theorem name_to_clsname_matches_spec :
    (∀ name, name_to_clsname name = name_to_clsname_spec name) ∧
    name_to_clsname "send_email" = "SendEmail" ∧
    name_to_clsname "send-email!!2" = "SendEmail2" :=
  ⟨name_to_clsname_eq_spec, by decide, by decide⟩

/-- Claim C8: `filter_types(t)` returns exactly the sub-mapping of entries
whose handler's `type` attribute equals `t` — so an absent type yields the
empty mapping, and over the types present the filtered results partition the
full mapping: every entry appears in the filter of its own type and in no
other. -/
theorem filter_types_exact_submapping (r : TaskRegistry) (ty : String)
    (l : TaskRegistry) (h : filter_types r ty = .ok l) :
    ∀ n v, ((n, v) ∈ l ↔ ((n, v) ∈ r ∧ typeAttr v = .ok ty)) := by
  induction r generalizing l with
  | nil =>
    simp only [filter_types, Except.ok.injEq] at h
    subst h
    simp
  | cons p rest ih =>
    obtain ⟨pn, pv⟩ := p
    cases hta : typeAttr pv with
    | error e => simp [filter_types, hta] at h
    | ok t =>
      cases hrec : filter_types rest ty with
      | error e => simp [filter_types, hta, hrec] at h
      | ok acc =>
        cases hbeq : t == ty with
        | true =>
          have ht : t = ty := by simpa using hbeq
          subst ht
          simp [filter_types, hta, hrec] at h
          subst h
          intro n v
          simp only [List.mem_cons, ih acc hrec n v]
          constructor
          · rintro (he | hmem)
            · injection he with he1 he2
              subst he1
              subst he2
              exact ⟨Or.inl rfl, hta⟩
            · exact ⟨Or.inr hmem.1, hmem.2⟩
          · rintro ⟨he | hmem, hty⟩
            · exact Or.inl he
            · exact Or.inr ⟨hmem, hty⟩
        | false =>
          have ht : t ≠ ty := by simpa using hbeq
          simp [filter_types, hta, hrec, hbeq] at h
          subst h
          intro n v
          rw [ih acc hrec n v]
          simp only [List.mem_cons]
          constructor
          · rintro ⟨hmem, hty⟩
            exact ⟨Or.inr hmem, hty⟩
          · rintro ⟨he | hmem, hty⟩
            · injection he with he1 he2
              subst he1
              subst he2
              rw [hta] at hty
              injection hty with hty2
              exact absurd hty2 ht
            · exact ⟨hmem, hty⟩

theorem filter_types_exact_submapping_witness :
    filter_types demoRegistry "regular" = .ok [("a", PyVal.inst demoHandlerA)] ∧
    (("a", PyVal.inst demoHandlerA) ∈ [("a", PyVal.inst demoHandlerA)] ↔
      (("a", PyVal.inst demoHandlerA) ∈ demoRegistry ∧
        typeAttr (PyVal.inst demoHandlerA) = .ok "regular")) :=
  ⟨rfl, filter_types_exact_submapping demoRegistry "regular"
    [("a", PyVal.inst demoHandlerA)] rfl "a" (PyVal.inst demoHandlerA)⟩

/-- Claim C9: when `register` is called without a name and the task object
has no `name` attribute, the call fails immediately with the undefined-name
error (`AttributeError` from `getattr(task, "name")`), and the registry is
unchanged. -/
theorem register_missing_name_attribute_error (r : TaskRegistry)
    (task : PyVal) (h : getattrName task = .error (.attributeError "name")) :
    register r task none = (.error (.attributeError "name"), r) := by
  simp [register, resolveName, h]

theorem register_missing_name_attribute_error_witness :
    getattrName (PyVal.func demoRun) = .error (.attributeError "name") ∧
    register demoRegistry (PyVal.func demoRun) none
      = (.error (.attributeError "name"), demoRegistry) :=
  ⟨rfl, register_missing_name_attribute_error demoRegistry (.func demoRun) rfl⟩

end CeleryRegistry
